import Mathlib

/-!
# Verification of the chatinstance CLI streaming chat session engine

This file gives a shallow embedding of the streaming chat session engine of
the chatinstance CLI and proves (or refutes) the specification's claims about
it.  The embedded code is:

* the chunk-decoding step of `ChatInstanceAPI.streamChat`
  (src/api/client.ts): each received chunk is converted to text, split on
  newline, `data: `-prefixed lines have their payload extracted and trimmed,
  the `[DONE]` sentinel resolves the stream, other payloads are JSON-parsed
  and a `choices[0].delta.content` fragment, when present, is delivered to
  the `onChunk` callback;
* one iteration of the interactive loop of `chatCommand`
  (src/commands/chat.ts): input validation and trimming, slash-command
  dispatch (`help`, `exit`, `quit`, `clear`, `provider`, `tokens`, unknown),
  and the chat-turn path that appends the user message, calls the transport
  and, on success, appends the assistant message.

JavaScript strings are modelled as `List Char` so that every operation used
by the source (`trim`, `split`, `slice`, `startsWith`, `toLowerCase`) is a
structurally recursive, kernel-evaluable Lean function.  The JSON parsing
performed by the host runtime (`JSON.parse` composed with the
`parsed.choices?.[0]?.delta?.content` truthiness guard) is not part of the
repository; the decoder is therefore parametrised by a payload-parsing
function `parse : List Char → Option (List Char)` that stands for that
composite, returning `some fragment` exactly when the payload is valid JSON
of the expected shape with a non-empty content string.
-/

/-- Character-list view of a string literal. -/
def str (s : String) : List Char := s.data

/-- JavaScript `String.prototype.trim`: remove leading and trailing
whitespace. -/
def jsTrim (s : List Char) : List Char :=
  ((s.dropWhile Char.isWhitespace).reverse.dropWhile Char.isWhitespace).reverse

/-- JavaScript `String.prototype.split` with a single-character separator:
`"".split(sep)` is `[""]`, separators at the ends produce empty segments. -/
def splitOnChar (sep : Char) : List Char → List (List Char)
  | [] => [[]]
  | c :: rest =>
      match splitOnChar sep rest with
      | [] => [[c]]
      | hd :: tl => if c = sep then [] :: hd :: tl else (c :: hd) :: tl

/-- JavaScript `String.prototype.toLowerCase` (on the ASCII command tokens
used by the dispatcher). -/
def jsToLower (s : List Char) : List Char := s.map Char.toLower

/-- Message role (interface `ChatMessage` in src/api/client.ts). -/
inductive Role
  | system
  | user
  | assistant
  deriving DecidableEq, Repr

/-- A transcript entry (interface `ChatMessage` in src/api/client.ts). -/
structure ChatMessage where
  role : Role
  content : List Char
  deriving DecidableEq, Repr

/-! ## The chunk-decoding step of `streamChat` (src/api/client.ts) -/

/-- The event-data line marker checked by `line.startsWith('data: ')`. -/
def dataMark : List Char := str "data: "

/-- The end-of-stream sentinel payload compared by `data === '[DONE]'`. -/
def doneMark : List Char := str "[DONE]"

/-- Observable decoding state of one `streamChat` call: whether the promise
has resolved via the sentinel, the trimmed payloads of all `data: ` lines
consumed so far (the decoded stream-event records), and the content
fragments delivered to `onChunk`. -/
structure DecodeState where
  done : Bool
  records : List (List Char)
  frags : List (List Char)
  deriving DecidableEq, Repr

/-- Decoding state at the start of a `streamChat` call. -/
def initDecode : DecodeState := ⟨false, [], []⟩

/-- The body of the `data` event handler of `streamChat`, applied to the
lines of one chunk.  A line is consumed only if it starts with `data: `;
the payload is the line after `slice(6)`, trimmed.  The `[DONE]` sentinel
resolves the promise and stops consumption (lines after it in the same
chunk are skipped by the `return`, and chunks after it can no longer affect
the already-committed response).  Any other payload is fed to `parse`; a
parse failure is silently ignored (`catch (e) {}` in the source) and
decoding continues with the next line. -/
def streamChatLines (parse : List Char → Option (List Char)) :
    DecodeState → List (List Char) → DecodeState
  | st, [] => st
  | st, line :: rest =>
    if st.done then st
    else if dataMark.isPrefixOf line then
      let data := jsTrim (line.drop 6)
      if data = doneMark then
        { st with done := true, records := st.records ++ [data] }
      else
        match parse data with
        | some content =>
            streamChatLines parse
              { st with records := st.records ++ [data],
                        frags := st.frags ++ [content] } rest
        | none =>
            streamChatLines parse { st with records := st.records ++ [data] } rest
    else
      streamChatLines parse st rest

/-- One invocation of the `data` event handler: `chunk.toString().split('\n')`
followed by the per-line processing. -/
def streamChatChunk (parse : List Char → Option (List Char))
    (st : DecodeState) (chunk : List Char) : DecodeState :=
  streamChatLines parse st (splitOnChar '\n' chunk)

/-- Decoding a whole sequence of received chunks, in receipt order. -/
def streamChatRun (parse : List Char → Option (List Char))
    (chunks : List (List Char)) : DecodeState :=
  chunks.foldl (streamChatChunk parse) initDecode

example : streamChatRun (fun _ => none) [str "data: [DONE]\n"] =
    ⟨true, [str "[DONE]"], []⟩ := by decide

/-! ## The fragment aggregation of `chatCommand` (src/commands/chat.ts)

The streaming branch sets `let response = ''` and passes
`(chunk) => { process.stdout.write(chunk); response += chunk; }` as the
`onChunk` callback, then commits `{ role: 'assistant', content: response }`.
-/

/-- The observable effect of the `onChunk` callback: the sequence of writes
made to the terminal sink and the accumulated response string. -/
structure StreamRun where
  displayed : List (List Char)
  response : List Char
  deriving DecidableEq, Repr

/-- One `onChunk` invocation: write the fragment to the terminal, then fold
it into the accumulator. -/
def onChunkStep (acc : StreamRun) (c : List Char) : StreamRun :=
  { displayed := acc.displayed ++ [c], response := acc.response ++ c }

/-- Running the callback over every fragment the stream delivers, in arrival
order, starting from the empty accumulator. -/
def aggregate (frags : List (List Char)) : StreamRun :=
  frags.foldl onChunkStep ⟨[], []⟩

/-! ## One iteration of the interactive loop of `chatCommand` -/

/-- Result of the transport call made for one chat turn: the streaming call
delivers a sequence of content fragments and resolves, the non-streaming
call returns one complete content string, or the call rejects. -/
inductive TurnOutcome
  | streamSuccess (frags : List (List Char))
  | callSuccess (content : List Char)
  | failure
  deriving DecidableEq, Repr

/-- State carried across iterations of the `while (true)` loop of
`chatCommand`: the `messages` array, a log of the transport calls made
(provider sent together with the message snapshot at call time), and
whether `/exit` or `/quit` terminated the session. -/
structure SessionState where
  messages : List ChatMessage
  sent : List (List Char × List ChatMessage)
  halted : Bool
  deriving DecidableEq, Repr

/-- The system seeding of the `messages` array (`if (options.system)
messages.push({ role: 'system', content: options.system })`), used both at
session start and by `/clear`.  JavaScript truthiness: an absent or empty
`options.system` seeds nothing. -/
def seedSystem (sys : Option (List Char)) : List ChatMessage :=
  match sys with
  | some s => if s = [] then [] else [⟨Role.system, s⟩]
  | none => []

/-- Session state right after the header is printed, before the first
prompt. -/
def initSession (sys : Option (List Char)) : SessionState :=
  ⟨seedSystem sys, [], false⟩

/-- Dispatch of one validated, trimmed input line, mirroring the body of the
loop in `chatCommand`.  A line starting with `/` is split as
`userInput.slice(1).split(' ')`; the first token, lowercased, selects a
switch case.  `help`, `provider` and `tokens` only print; `exit`/`quit`
terminate the session; `clear` resets `messages` and re-seeds the system
prompt; unknown commands print an error.  Any other line is a chat turn:
the user message is pushed, the transport is called with the pushed array,
and on success exactly one assistant message is pushed (the aggregated
response in the streaming branch, `response.choices[0].message.content` in
the non-streaming branch); a rejection is caught and pushes nothing. -/
def dispatchLine (provider : List Char) (sys : Option (List Char))
    (st : SessionState) (userInput : List Char) (out : TurnOutcome) :
    SessionState :=
  if (str "/").isPrefixOf userInput then
    let command := jsToLower ((splitOnChar ' ' (userInput.drop 1)).headD [])
    if command = str "help" then st
    else if command = str "exit" then { st with halted := true }
    else if command = str "quit" then { st with halted := true }
    else if command = str "clear" then { st with messages := seedSystem sys }
    else if command = str "provider" then st
    else if command = str "tokens" then st
    else st
  else
    let msgs := st.messages ++ [⟨Role.user, userInput⟩]
    match out with
    | .streamSuccess frags =>
        { st with
            messages := msgs ++ [⟨Role.assistant, (aggregate frags).response⟩],
            sent := st.sent ++ [(provider, msgs)] }
    | .callSuccess content =>
        { st with
            messages := msgs ++ [⟨Role.assistant, content⟩],
            sent := st.sent ++ [(provider, msgs)] }
    | .failure =>
        { st with messages := msgs, sent := st.sent ++ [(provider, msgs)] }

/-- One iteration of the loop: a halted session reads no further input; the
inquirer validator re-prompts (state unchanged) while `input.trim()` is
empty; otherwise the trimmed line is dispatched. -/
def chatCommandStep (provider : List Char) (sys : Option (List Char))
    (st : SessionState) (input : List Char) (out : TurnOutcome) :
    SessionState :=
  if st.halted then st
  else if jsTrim input = [] then st
  else dispatchLine provider sys st (jsTrim input) out

/-- The session loop run over a whole interaction trace: each element pairs
an input line with the transport outcome the environment produces if that
line turns into a chat turn. -/
def chatCommandLoop (provider : List Char) (sys : Option (List Char))
    (st : SessionState) : List (List Char × TurnOutcome) → SessionState
  | [] => st
  | (input, out) :: tl =>
      chatCommandLoop provider sys (chatCommandStep provider sys st input out) tl

/-- The estimate printed by `/tokens`:
`Math.ceil(messages.reduce((sum, msg) => sum + msg.content.length / 4, 0))`,
with JavaScript number arithmetic modelled in `ℚ`. -/
def tokensPrinted (msgs : List ChatMessage) : ℤ :=
  Int.ceil (msgs.foldl (fun sum m => sum + (m.content.length : ℚ) / 4) 0)

/-- An assistant message whose content is the complete result of a finished
transport call: the full aggregate of a resolved stream, or the content of
a returned non-streaming response.  A rejected call completes nothing. -/
def assistantComplete : TurnOutcome → ChatMessage → Prop
  | .streamSuccess frags, m => m.content = (aggregate frags).response
  | .callSuccess c, m => m.content = c
  | .failure, _ => False

example : (chatCommandStep (str "p") none (initSession none) (str "hi")
    (TurnOutcome.streamSuccess [str "a", str "b"])).messages =
    [⟨Role.user, str "hi"⟩, ⟨Role.assistant, str "ab"⟩] := by decide

/-! ## Decoder facts -/

/-- The two stream chunks of the specification's end-to-end scenario A: the
event line `data: {"choices":[{"delta":{"content":"Hello"}}]}` split inside
the JSON payload, followed by the terminated sentinel line. -/
def scenarioChunk1 : List Char :=
  str "data: \x7b\"choices\":[\x7b\"delta\":\x7b\"content\":\"Hel"

/-- Second chunk of scenario A. -/
def scenarioChunk2 : List Char :=
  str "lo\"\x7d\x7d]\x7d\n\ndata: [DONE]\n"

/-- Modelling `JSON.parse` plus `choices[0].delta.content` extraction at the
payloads occurring in scenario A: the complete object parses to the
fragment `Hello`; every other payload of the scenario (in particular the
truncated front half of the object, which is not valid JSON) parses to
nothing. -/
def parseScenarioA : List Char → Option (List Char) := fun s =>
  if s = str "\x7b\"choices\":[\x7b\"delta\":\x7b\"content\":\"Hello\"\x7d\x7d]\x7d" then
    some (str "Hello")
  else none

/-- C1: refuted on the code.  The chunk handler splits every chunk on
newlines independently, with no pending-fragment buffer carried between
chunks, so decoding is not invariant under chunk splits: processing
scenario A's stream as one unsplit chunk delivers the fragment `Hello`,
while processing it split inside the JSON payload (the split of scenario A)
delivers no fragment at all. -/
theorem streamChat_split_sensitive :
    (streamChatRun parseScenarioA [scenarioChunk1 ++ scenarioChunk2]).frags =
        [str "Hello"] ∧
    (streamChatRun parseScenarioA [scenarioChunk1 ++ scenarioChunk2]).done = true ∧
    (streamChatRun parseScenarioA [scenarioChunk1, scenarioChunk2]).frags = [] ∧
    (streamChatRun parseScenarioA [scenarioChunk1, scenarioChunk2]).done = true := by
  decide

/-- C4: counterexample.  Sentinel recognition is case-sensitive: the payload
`[done]`, equal to the sentinel up to letter case, does not terminate
decoding — it is consumed as an ordinary event record instead. -/
theorem done_sentinel_case_cex :
    (streamChatRun (fun _ => none) [str "data: [done]\n"]).done = false ∧
    (streamChatRun (fun _ => none) [str "data: [done]\n"]).records =
      [str "[done]"] := by
  decide

/-- C4 (amended): sentinel recognition is whitespace-insensitive — the
payload is trimmed of leading and trailing whitespace before the comparison
— but case-sensitive, and it happens before the payload reaches JSON
parsing: on any event-data line whose trimmed payload is exactly `[DONE]`,
decoding terminates immediately with no fragment and with a result that
does not depend on the parse function. -/
theorem done_sentinel_trimmed (parse : List Char → Option (List Char))
    (st : DecodeState) (line : List Char) (rest : List (List Char))
    (hd : st.done = false) (hp : dataMark.isPrefixOf line = true)
    (hs : jsTrim (line.drop 6) = doneMark) :
    streamChatLines parse st (line :: rest) =
      { st with done := true, records := st.records ++ [doneMark] } := by
  simp [streamChatLines, hd, hp, hs]

/-- Witness for the amended C4: a sentinel payload padded with whitespace
terminates decoding at once; the following event line is never consumed. -/
theorem done_sentinel_trimmed_w :
    streamChatLines (fun s => some s) initDecode
        [str "data:   [DONE]  ", str "data: x"] =
      ⟨true, [doneMark], []⟩ :=
  done_sentinel_trimmed (fun s => some s) initDecode (str "data:   [DONE]  ")
    [str "data: x"] rfl (by decide) (by decide)

/-- C7: a data line whose payload is neither the sentinel nor parseable is
skipped — it contributes its record and nothing else, decoding is not
aborted, and the remaining lines are processed exactly as before. -/
theorem malformed_record_skipped (parse : List Char → Option (List Char))
    (st : DecodeState) (line : List Char) (rest : List (List Char))
    (hd : st.done = false) (hp : dataMark.isPrefixOf line = true)
    (hs : jsTrim (line.drop 6) ≠ doneMark)
    (hj : parse (jsTrim (line.drop 6)) = none) :
    streamChatLines parse st (line :: rest) =
      streamChatLines parse
        { st with records := st.records ++ [jsTrim (line.drop 6)] } rest := by
  simp [streamChatLines, hd, hp, hs, hj]

/-- Parse function for the C7 witness: only the payload `good` is valid and
carries the fragment `yes`. -/
def parseGood : List Char → Option (List Char) := fun s =>
  if s = str "good" then some (str "yes") else none

/-- Witness for C7: a malformed record is skipped and the fragment of the
subsequent valid record is still delivered. -/
theorem malformed_record_skipped_w :
    streamChatLines parseGood initDecode
        [str "data: nonsense", str "data: good"] =
      ⟨false, [str "nonsense", str "good"], [str "yes"]⟩ :=
  (malformed_record_skipped parseGood initDecode (str "data: nonsense")
      [str "data: good"] rfl (by decide) (by decide) (by decide)).trans (by decide)

/-! ## Aggregation facts -/

/-- Folding the `onChunk` callback appends the fragments to the display log
and their concatenation to the accumulator. -/
theorem foldl_onChunkStep (frags : List (List Char)) (d : List (List Char))
    (r : List Char) :
    frags.foldl onChunkStep ⟨d, r⟩ = ⟨d ++ frags, r ++ frags.flatten⟩ := by
  induction frags generalizing d r with
  | nil => simp
  | cons c tl ih => simp [onChunkStep, ih]

/-! ## Session-loop facts -/

/-- The shape of one chat turn: a non-empty, non-slash input line appends the
trimmed user message, logs exactly one transport call carrying the array as
of that push, and appends the assistant message the outcome determines (one
for a success, none for a rejection). -/
theorem chatTurn_step (provider : List Char) (sys : Option (List Char))
    (st : SessionState) (input : List Char) (out : TurnOutcome)
    (hh : st.halted = false) (hne : jsTrim input ≠ [])
    (hns : (str "/").isPrefixOf (jsTrim input) = false) :
    chatCommandStep provider sys st input out =
      { st with
          messages := (st.messages ++ [⟨Role.user, jsTrim input⟩]) ++
            (match out with
             | .streamSuccess frags =>
                 [⟨Role.assistant, (aggregate frags).response⟩]
             | .callSuccess c => [⟨Role.assistant, c⟩]
             | .failure => []),
          sent := st.sent ++
            [(provider, st.messages ++ [⟨Role.user, jsTrim input⟩])] } := by
  cases out <;> simp [chatCommandStep, dispatchLine, hh, hne, hns]

/-- C2: counterexample.  A chat turn whose transport call rejects does not
leave the transcript at its pre-turn state: the user message was already
pushed before the call and stays. -/
theorem failed_turn_cex :
    (chatCommandStep (str "chatgpt") none (initSession none) (str "hi")
        TurnOutcome.failure).messages ≠ (initSession none).messages := by
  decide

/-- C2 (amended): a chat turn whose transport call rejects leaves the
transcript equal to its pre-turn state with exactly the trimmed user
message appended; no assistant message is committed, so the next turn's
context carries the failed turn's user message but no reply for it. -/
theorem failed_turn_appends_user_only (provider : List Char)
    (sys : Option (List Char)) (st : SessionState) (input : List Char)
    (hh : st.halted = false) (hne : jsTrim input ≠ [])
    (hns : (str "/").isPrefixOf (jsTrim input) = false) :
    (chatCommandStep provider sys st input TurnOutcome.failure).messages =
      st.messages ++ [⟨Role.user, jsTrim input⟩] := by
  rw [chatTurn_step provider sys st input TurnOutcome.failure hh hne hns]
  simp

/-- Witness for the amended C2. -/
theorem failed_turn_appends_user_only_w :
    (chatCommandStep (str "p") none (initSession none) (str " hi ")
        TurnOutcome.failure).messages =
      (initSession none).messages ++ [⟨Role.user, jsTrim (str " hi ")⟩] :=
  failed_turn_appends_user_only (str "p") none (initSession none) (str " hi ")
    rfl (by decide) (by decide)

/-- C5: the terminal sink receives exactly the fragments in arrival order,
the accumulated response is their exact concatenation (no reordering, loss
or duplication), and the assistant message committed by a successful
streaming turn carries exactly that concatenation — so displayed text and
committed text are byte-identical. -/
theorem stream_display_equals_commit (provider : List Char)
    (sys : Option (List Char)) (st : SessionState) (input : List Char)
    (frags : List (List Char)) (hh : st.halted = false)
    (hne : jsTrim input ≠ [])
    (hns : (str "/").isPrefixOf (jsTrim input) = false) :
    (aggregate frags).displayed = frags ∧
    (aggregate frags).response = frags.flatten ∧
    (aggregate frags).displayed.flatten = (aggregate frags).response ∧
    (chatCommandStep provider sys st input
        (TurnOutcome.streamSuccess frags)).messages =
      st.messages ++
        [⟨Role.user, jsTrim input⟩, ⟨Role.assistant, frags.flatten⟩] := by
  have ha : aggregate frags = ⟨frags, frags.flatten⟩ := by
    simpa [aggregate] using foldl_onChunkStep frags [] []
  refine ⟨by rw [ha], by rw [ha], by rw [ha], ?_⟩
  rw [chatTurn_step provider sys st input _ hh hne hns]
  simp [ha]

/-- Witness for C5. -/
theorem stream_display_equals_commit_w :
    (aggregate [str "Hel", str "lo"]).displayed = [str "Hel", str "lo"] ∧
    (aggregate [str "Hel", str "lo"]).response = [str "Hel", str "lo"].flatten ∧
    (aggregate [str "Hel", str "lo"]).displayed.flatten =
      (aggregate [str "Hel", str "lo"]).response ∧
    (chatCommandStep (str "p") none (initSession none) (str "hi")
        (TurnOutcome.streamSuccess [str "Hel", str "lo"])).messages =
      (initSession none).messages ++
        [⟨Role.user, jsTrim (str "hi")⟩,
         ⟨Role.assistant, [str "Hel", str "lo"].flatten⟩] :=
  stream_display_equals_commit (str "p") none (initSession none) (str "hi")
    [str "Hel", str "lo"] rfl (by decide) (by decide)

/-- C10: dispatch depends only on the trimmed input line, and a chat turn
appends a user message carrying the trimmed content, never the raw line. -/
theorem input_trimmed_for_dispatch :
    (∀ (provider : List Char) (sys : Option (List Char)) (st : SessionState)
        (inp inp2 : List Char) (out : TurnOutcome), jsTrim inp = jsTrim inp2 →
      chatCommandStep provider sys st inp out =
        chatCommandStep provider sys st inp2 out) ∧
    (∀ (provider : List Char) (sys : Option (List Char)) (st : SessionState)
        (input : List Char) (out : TurnOutcome), st.halted = false →
      jsTrim input ≠ [] → (str "/").isPrefixOf (jsTrim input) = false →
      ∃ rest, (chatCommandStep provider sys st input out).messages =
        st.messages ++ ⟨Role.user, jsTrim input⟩ :: rest) := by
  constructor
  · intro provider sys st inp inp2 out h
    simp only [chatCommandStep, h]
  · intro provider sys st input out hh hne hns
    rw [chatTurn_step provider sys st input out hh hne hns]
    cases out with
    | streamSuccess frags =>
        exact ⟨[⟨Role.assistant, (aggregate frags).response⟩], by simp⟩
    | callSuccess c => exact ⟨[⟨Role.assistant, c⟩], by simp⟩
    | failure => exact ⟨[], by simp⟩

/-- Witness for C10: raw input `"  hi  "` dispatches exactly like the
trimmed `"hi"`, and the appended user message carries the trimmed text. -/
theorem input_trimmed_for_dispatch_w :
    chatCommandStep (str "p") none (initSession none) (str "  hi  ")
        TurnOutcome.failure =
      chatCommandStep (str "p") none (initSession none) (str "hi")
        TurnOutcome.failure ∧
    ∃ rest,
      (chatCommandStep (str "p") none (initSession none) (str "  hi  ")
          TurnOutcome.failure).messages =
        (initSession none).messages ++ ⟨Role.user, jsTrim (str "  hi  ")⟩ :: rest :=
  ⟨input_trimmed_for_dispatch.1 (str "p") none (initSession none) _ _ _ (by decide),
   input_trimmed_for_dispatch.2 (str "p") none (initSession none) (str "  hi  ")
     TurnOutcome.failure rfl (by decide) (by decide)⟩

/-- The `/clear` case of the dispatcher empties the `messages` array and
re-seeds it from the configured system prompt, whatever the current
transcript is. -/
theorem clear_step_messages (provider : List Char) (sys : Option (List Char))
    (st : SessionState) (out : TurnOutcome) (hh : st.halted = false) :
    (chatCommandStep provider sys st (str "/clear") out).messages =
      seedSystem sys := by
  obtain ⟨msgs, sent, halted⟩ := st
  subst hh
  rfl

/-- C6: after dispatching `/clear` the transcript is either empty or the
single original system message. -/
theorem clear_cmd (provider : List Char) (sys : Option (List Char))
    (st : SessionState) (out : TurnOutcome) (hh : st.halted = false) :
    (chatCommandStep provider sys st (str "/clear") out).messages = [] ∨
      ∃ s, sys = some s ∧
        (chatCommandStep provider sys st (str "/clear") out).messages =
          [⟨Role.system, s⟩] := by
  rw [clear_step_messages provider sys st out hh]
  match sys with
  | none => exact Or.inl rfl
  | some s =>
      by_cases hs : s = []
      · exact Or.inl (by simp [seedSystem, hs])
      · exact Or.inr ⟨s, rfl, by simp [seedSystem, hs]⟩

/-- Session state of the specification's scenario C: system prompt
`You are terse.` and two exchanged turns. -/
def scenarioCState : SessionState :=
  ⟨[⟨Role.system, str "You are terse."⟩, ⟨Role.user, str "a"⟩,
    ⟨Role.assistant, str "b"⟩, ⟨Role.user, str "c"⟩,
    ⟨Role.assistant, str "d"⟩], [], false⟩

/-- Witness for C6 (scenario C). -/
theorem clear_cmd_w :
    (chatCommandStep (str "p") (some (str "You are terse.")) scenarioCState
        (str "/clear") TurnOutcome.failure).messages = [] ∨
      ∃ s, some (str "You are terse.") = some s ∧
        (chatCommandStep (str "p") (some (str "You are terse.")) scenarioCState
            (str "/clear") TurnOutcome.failure).messages =
          [⟨Role.system, s⟩] :=
  clear_cmd (str "p") (some (str "You are terse.")) scenarioCState
    TurnOutcome.failure rfl

/-- C8: evidence on the code.  `/provider claude` leaves the transcript
unchanged, but it also leaves the active provider unchanged: the next chat
turn is still sent with the session's original provider `chatgpt`, not with
`claude` (the handler only prints a message; the source comments that a
real implementation would switch the provider). -/
theorem provider_cmd_no_switch :
    (chatCommandLoop (str "chatgpt") none (initSession none)
        [(str "/provider claude", TurnOutcome.failure)]).messages = [] ∧
    (chatCommandLoop (str "chatgpt") none (initSession none)
        [(str "/provider claude", TurnOutcome.failure),
         (str "hello", TurnOutcome.streamSuccess [str "Hi"])]).sent =
      [(str "chatgpt", [⟨Role.user, str "hello"⟩])] := by
  decide

/-- The running sum computed by `messages.reduce` in the `/tokens` handler
equals the initial value plus a quarter of the total content length. -/
theorem tokens_foldl (msgs : List ChatMessage) (init : ℚ) :
    msgs.foldl (fun sum m => sum + (m.content.length : ℚ) / 4) init =
      init + (((msgs.map fun m => m.content.length).sum : ℕ) : ℚ) / 4 := by
  induction msgs generalizing init with
  | nil => simp
  | cons m tl ih =>
      rw [List.foldl_cons, ih, List.map_cons, List.sum_cons, Nat.cast_add]
      ring

/-- C9: dispatching `/tokens` never mutates the transcript, and the printed
estimate is the cumulative content length divided by four, rounded up. -/
theorem tokens_cmd :
    (∀ (provider : List Char) (sys : Option (List Char)) (st : SessionState)
        (out : TurnOutcome), st.halted = false →
      (chatCommandStep provider sys st (str "/tokens") out).messages =
        st.messages) ∧
    ∀ msgs : List ChatMessage,
      tokensPrinted msgs =
        Int.ceil ((((msgs.map fun m => m.content.length).sum : ℕ) : ℚ) / 4) := by
  constructor
  · intro provider sys st out hh
    obtain ⟨msgs, sent, halted⟩ := st
    subst hh
    rfl
  · intro msgs
    unfold tokensPrinted
    rw [tokens_foldl, zero_add]

/-- Witness for C9. -/
theorem tokens_cmd_w :
    (chatCommandStep (str "p") none ⟨[⟨Role.user, str "hello"⟩], [], false⟩
        (str "/tokens") TurnOutcome.failure).messages =
      [⟨Role.user, str "hello"⟩] :=
  tokens_cmd.1 (str "p") none ⟨[⟨Role.user, str "hello"⟩], [], false⟩
    TurnOutcome.failure rfl

/-- Every message the system seeding produces carries the system role. -/
theorem seedSystem_role (sys : Option (List Char)) (m : ChatMessage)
    (hm : m ∈ seedSystem sys) : m.role = Role.system := by
  match sys with
  | none => simp [seedSystem] at hm
  | some s =>
      by_cases hs : s = []
      · simp [seedSystem, hs] at hm
      · simp [seedSystem, hs] at hm
        rw [hm]

/-- A slash-prefixed line never appends a message: every command branch
either keeps the `messages` array or resets it to the system seeding. -/
theorem dispatch_slash_messages (provider : List Char)
    (sys : Option (List Char)) (st : SessionState) (u : List Char)
    (out : TurnOutcome) (hp : (str "/").isPrefixOf u = true) :
    (dispatchLine provider sys st u out).messages = st.messages ∨
      (dispatchLine provider sys st u out).messages = seedSystem sys := by
  simp only [dispatchLine, hp, if_true]
  split_ifs <;> simp

/-- Any message present after one loop iteration was already present
before it, or is not an assistant message, or is an assistant message
carrying the complete content of this turn's finished transport call. -/
theorem step_message_sources (provider : List Char) (sys : Option (List Char))
    (st : SessionState) (input : List Char) (out : TurnOutcome)
    (m : ChatMessage)
    (hm : m ∈ (chatCommandStep provider sys st input out).messages) :
    m ∈ st.messages ∨ m.role ≠ Role.assistant ∨ assistantComplete out m := by
  by_cases hhal : st.halted = true
  · rw [chatCommandStep, if_pos hhal] at hm
    exact Or.inl hm
  have hh : st.halted = false := by simpa using hhal
  by_cases hne : jsTrim input = []
  · rw [chatCommandStep, if_neg hhal, if_pos hne] at hm
    exact Or.inl hm
  by_cases hp : (str "/").isPrefixOf (jsTrim input) = true
  · rw [chatCommandStep, if_neg hhal, if_neg hne] at hm
    rcases dispatch_slash_messages provider sys st (jsTrim input) out hp
      with he | he
    · rw [he] at hm
      exact Or.inl hm
    · rw [he] at hm
      have hrole := seedSystem_role sys m hm
      exact Or.inr (Or.inl (by rw [hrole]; simp))
  · have hns : (str "/").isPrefixOf (jsTrim input) = false :=
      Bool.eq_false_iff.mpr hp
    rw [chatTurn_step provider sys st input out hh hne hns] at hm
    cases out with
    | streamSuccess frags =>
        simp only [List.append_assoc, List.mem_append, List.mem_singleton] at hm
        rcases hm with hm | hm | hm
        · exact Or.inl hm
        · exact Or.inr (Or.inl (by rw [hm]; simp))
        · exact Or.inr (Or.inr (by rw [hm]; rfl))
    | callSuccess c =>
        simp only [List.append_assoc, List.mem_append, List.mem_singleton] at hm
        rcases hm with hm | hm | hm
        · exact Or.inl hm
        · exact Or.inr (Or.inl (by rw [hm]; simp))
        · exact Or.inr (Or.inr (by rw [hm]; rfl))
    | failure =>
        simp only [List.append_nil, List.mem_append, List.mem_singleton] at hm
        rcases hm with hm | hm
        · exact Or.inl hm
        · exact Or.inr (Or.inl (by rw [hm]; simp))

/-- Lifting `step_message_sources` over a whole interaction trace. -/
theorem loop_message_sources (provider : List Char) (sys : Option (List Char))
    (trace : List (List Char × TurnOutcome)) :
    ∀ (st : SessionState) (m : ChatMessage),
      m ∈ (chatCommandLoop provider sys st trace).messages →
      m ∈ st.messages ∨ m.role ≠ Role.assistant ∨
        ∃ inp out, (inp, out) ∈ trace ∧ assistantComplete out m := by
  induction trace with
  | nil =>
      intro st m hm
      exact Or.inl hm
  | cons p tl ih =>
      intro st m hm
      obtain ⟨input, out⟩ := p
      rw [chatCommandLoop] at hm
      rcases ih (chatCommandStep provider sys st input out) m hm with h | h | h
      · rcases step_message_sources provider sys st input out m h
          with h' | h' | h'
        · exact Or.inl h'
        · exact Or.inr (Or.inl h')
        · exact Or.inr (Or.inr ⟨input, out, List.mem_cons_self _ _, h'⟩)
      · exact Or.inr (Or.inl h)
      · obtain ⟨inp, o, hmem, hc⟩ := h
        exact Or.inr (Or.inr ⟨inp, o, List.mem_cons_of_mem _ hmem, hc⟩)

/-- C3: in every state the session loop reaches from the initial transcript,
every assistant message carries the complete content of some finished
transport call of the trace — the full aggregate of a resolved stream or
the returned content of a non-streaming call — so the transcript never
contains a partially-streamed assistant message. -/
theorem transcript_assistant_complete (provider : List Char)
    (sys : Option (List Char)) (trace : List (List Char × TurnOutcome))
    (m : ChatMessage)
    (hm : m ∈ (chatCommandLoop provider sys (initSession sys) trace).messages)
    (ha : m.role = Role.assistant) :
    ∃ inp out, (inp, out) ∈ trace ∧ assistantComplete out m := by
  rcases loop_message_sources provider sys trace (initSession sys) m hm
    with h | h | h
  · exact absurd ha (by rw [seedSystem_role sys m h]; simp)
  · exact absurd ha h
  · exact h

/-- Witness for C3: in a session whose only turn streamed the fragments
`Hi` and `!`, the assistant message in the final transcript is the full
aggregate `Hi!` of that turn. -/
theorem transcript_assistant_complete_w :
    ∃ inp out,
      (inp, out) ∈
        [(str "hello", TurnOutcome.streamSuccess [str "Hi", str "!"])] ∧
      assistantComplete out ⟨Role.assistant, str "Hi!"⟩ :=
  transcript_assistant_complete (str "p") none
    [(str "hello", TurnOutcome.streamSuccess [str "Hi", str "!"])]
    ⟨Role.assistant, str "Hi!"⟩ (by decide) rfl
